import Mathlib

/-!
Verification development for the OAuth discovery-and-authorization flow of a
Next.js MCP (Model Context Protocol) agent application.

The TypeScript sources are shallowly embedded: JavaScript strings are modelled
as `List Char`, JavaScript numbers appearing in time arithmetic as `ℚ`, the
Prisma-backed database as a list of `MCPServer` records manipulated by explicit
state passing, and the outbound network as oracle values supplied per call
site.  JavaScript truthiness is modelled faithfully where the code relies on
it (`""` and `0` are falsy).
-/

namespace OAuthFlow

/-- JavaScript strings, modelled as lists of characters. -/
abbrev Str := List Char

/-- The double-quote character (written numerically to keep literals simple). -/
def quoteChar : Char := Char.ofNat 34

/-- JS truthiness of a string: non-empty. -/
def strTruthy (s : Str) : Bool := !s.isEmpty

/-- `pat.isPrefixOf s` re-stated for `Str` via `List.isPrefixOf`. -/
def strIsPrefixOf (pat s : Str) : Bool := List.isPrefixOf pat s

/-- JS `s.includes(pat)`: some contiguous occurrence of `pat` inside `s`. -/
def containsSub (pat : Str) : Str → Bool
  | [] => pat.isEmpty
  | c :: rest => strIsPrefixOf pat (c :: rest) || containsSub pat rest

/-- JS `String.prototype.toLowerCase`, restricted to the ASCII lowering that
`Char.toLower` performs (all characters the flow inspects are ASCII). -/
def strToLower (s : Str) : Str := s.map Char.toLower

/-- Longest initial run of non-quote characters (the `[^"]*` greedy scan). -/
def takeNonQuote : Str → Str
  | [] => []
  | c :: rest => if c = quoteChar then [] else c :: takeNonQuote rest

/-- One attempt of the regex `key("[^"]+")` at each successive position of the
subject string, leftmost match first, exactly like `String.prototype.match`
with the pattern `key"([^"]+)"` (where `key` ends in the opening quote):
at a position, the literal `key` must match, then a non-empty run of
non-quote characters, then a closing quote. -/
def scanKey (key : Str) : Str → Option Str
  | [] => none
  | c :: rest =>
    if strIsPrefixOf key (c :: rest) then
      let after := (c :: rest).drop key.length
      let run := takeNonQuote after
      if run.isEmpty then scanKey key rest
      else if (after.drop run.length).head? = some quoteChar then some run
      else scanKey key rest
    else scanKey key rest

/-- The literal `resource_metadata="` (opening quote included). -/
def rmKey : Str := ("resource_metadata=").data ++ [quoteChar]

/-- The literal `realm="` (opening quote included). -/
def realmKey : Str := ("realm=").data ++ [quoteChar]

/-- `extractResourceMetadataUrl` from `src/lib/mcp/oauth-detection.ts`:
first match of `/resource_metadata="([^"]+)"/`, else first match of
`/realm="([^"]+)"/`, else `undefined`. -/
def extractResourceMetadataUrl (wwwAuthHeader : Str) : Option Str :=
  match scanKey rmKey wwwAuthHeader with
  | some url => some url
  | none => scanKey realmKey wwwAuthHeader

/-- An HTTP response as seen by the probe: status plus the value of
`headers.get("WWW-Authenticate")` (`none` when the header is absent). -/
structure HttpResponse where
  status : Nat
  wwwAuthenticate : Option Str
deriving DecidableEq, Repr

/-- Outcome of the `fetch` in `detectOAuthRequirement`: a response, or a
thrown transport error (`some msg` when the thrown value is an `Error`
carrying `msg`, `none` otherwise). -/
inductive FetchOutcome where
  | success (r : HttpResponse)
  | failure (msg : Option Str)
deriving DecidableEq, Repr

/-- The `OAuthDetectionResult` interface. -/
structure OAuthDetectionResult where
  requiresAuth : Bool
  resourceMetadataUrl : Option Str := none
  error : Option Str := none
deriving DecidableEq, Repr

/-- The message used when the thrown value is not an `Error`. -/
def unknownErrorMsg : Str := ("Unknown error").data

/-- The literal `bearer`. -/
def bearerLit : Str := ("bearer").data

/-- `detectOAuthRequirement` from `src/lib/mcp/oauth-detection.ts`, as a
function of the fetch outcome.  `wwwAuth && wwwAuth.toLowerCase()
.includes("bearer")` checks truthiness of the header value first. -/
def detectOAuthRequirement : FetchOutcome → OAuthDetectionResult
  | .success r =>
    if r.status = 401 then
      match r.wwwAuthenticate with
      | some w =>
        if strTruthy w && containsSub bearerLit (strToLower w) then
          { requiresAuth := true, resourceMetadataUrl := extractResourceMetadataUrl w }
        else
          { requiresAuth := true }
      | none => { requiresAuth := true }
    else
      { requiresAuth := false }
  | .failure msg =>
    { requiresAuth := false, error := some (msg.getD unknownErrorMsg) }

/-- A stored token bundle; only `expires_at` (epoch seconds) is inspected by
the flow.  JS numbers in the expiry comparison are modelled as rationals. -/
structure Tokens where
  expires_at : Option ℚ
deriving DecidableEq, Repr

/-- `isTokenExpired` from `src/lib/mcp/oauth-detection.ts`, with the current
time passed explicitly as `Date.now()` milliseconds.  `!tokens.expires_at`
is JS-falsy also when `expires_at` is `0`. -/
def isTokenExpired (nowMs : ℚ) (tokens : Option Tokens) : Bool :=
  match tokens with
  | none => false
  | some tk =>
    match tk.expires_at with
    | none => false
    | some t => if t = 0 then false else decide (nowMs / 1000 > t - 60)

/-- Process configuration read by `getAppUrl`. -/
structure Config where
  appUrlEnv : Option Str
  nodeEnv : Str
deriving DecidableEq, Repr

/-- Drop a single trailing slash (the regex `/\/$/` replaced by `""`). -/
def stripTrailingSlash (u : Str) : Str :=
  if u.getLast? = some '/' then u.dropLast else u

/-- The development fallback URL. -/
def devFallbackUrl : Str := ("http://localhost:3000").data

/-- The `NODE_ENV` value that enables the development fallback. -/
def devEnv : Str := ("development").data

/-- The error message thrown on missing production configuration
(abbreviated to its lead sentence). -/
def misconfigMsg : Str :=
  ("NEXT_PUBLIC_APP_URL environment variable is required in production.").data

/-- `getAppUrl` from `src/lib/config/app-url.ts`: an env value that is truthy
is returned with one trailing slash stripped; otherwise development falls
back to localhost and production throws. -/
def getAppUrl (cfg : Config) : Except Str Str :=
  match cfg.appUrlEnv with
  | some u =>
    if strTruthy u then .ok (stripTrailingSlash u)
    else if cfg.nodeEnv = devEnv then .ok devFallbackUrl
    else .error misconfigMsg
  | none =>
    if cfg.nodeEnv = devEnv then .ok devFallbackUrl
    else .error misconfigMsg

/-- A dynamically registered OAuth client record (`clientInfo` JSON); only its
identity matters to the flow, so it is modelled by the `client_id`. -/
structure ClientInfo where
  client_id : Str
deriving DecidableEq, Repr

/-- One `MCPServer` row of the Prisma schema (the fields the OAuth flow
touches). -/
structure MCPServer where
  id : Str
  name : Str
  type : Str
  url : Option Str
  requiresAuth : Option Bool
  authTokens : Option Tokens
  clientInfo : Option ClientInfo
  codeVerifier : Option Str
  oauthStatus : Option Str
deriving DecidableEq, Repr

/-- The five `OAuthStatus` constants. -/
def sUNKNOWN : Str := ("UNKNOWN").data
def sNOT_REQUIRED : Str := ("NOT_REQUIRED").data
def sREQUIRED : Str := ("REQUIRED").data
def sCONNECTED : Str := ("CONNECTED").data
def sEXPIRED : Str := ("EXPIRED").data

/-- The list of the five `OAuthStatus` enum values. -/
def oauthStatusValues : List Str :=
  [sUNKNOWN, sNOT_REQUIRED, sREQUIRED, sCONNECTED, sEXPIRED]

/-- The database, a list of server rows. -/
abbrev DB := List MCPServer

/-- `prisma.mCPServer.findUnique({ where: { id } })`. -/
def dbFindUnique (db : DB) (sid : Str) : Option MCPServer :=
  db.find? (fun s => s.id == sid)

/-- The literal `http`. -/
def httpLit : Str := ("http").data

/-- `prisma.mCPServer.findFirst({ where: { id, type: "http",
url: { not: null } } })`. -/
def dbFindFirstHttp (db : DB) (sid : Str) : Option MCPServer :=
  db.find? (fun s => s.id == sid && s.type == httpLit && s.url.isSome)

/-- `prisma.mCPServer.update({ where: { id }, data })`: apply `f` to the
row(s) with the given id. -/
def dbUpdate (db : DB) (sid : Str) (f : MCPServer → MCPServer) : DB :=
  db.map (fun s => if s.id == sid then f s else s)

/-- `updateServerOAuthStatus` from `src/lib/mcp/oauth-detection.ts`. -/
def updateServerOAuthStatus (db : DB) (sid : Str) (status : Str) : DB :=
  dbUpdate db sid (fun s => { s with oauthStatus := some status })

/-- The outbound network calls the flow can make, for call traces. -/
inductive NetCall where
  | probe
  | resourceMetaFetch
  | authServerMetaFetch
  | register
  | tokenExchange
deriving DecidableEq, Repr

/-! ### `encodeURIComponent` -/

/-- Characters `encodeURIComponent` leaves unescaped:
`A–Z a–z 0–9 - _ . ! ~ * ' ( )`. -/
def uriUnreserved (c : Char) : Bool :=
  (65 ≤ c.toNat && c.toNat ≤ 90) || (97 ≤ c.toNat && c.toNat ≤ 122) ||
  (48 ≤ c.toNat && c.toNat ≤ 57) ||
  c.toNat ∈ [45, 95, 46, 33, 126, 42, 39, 40, 41]

/-- UTF-8 bytes of a character. -/
def utf8Bytes (c : Char) : List Nat :=
  let n := c.toNat
  if n < 128 then [n]
  else if n < 2048 then [192 + n / 64, 128 + n % 64]
  else if n < 65536 then [224 + n / 4096, 128 + n / 64 % 64, 128 + n % 64]
  else [240 + n / 262144, 128 + n / 4096 % 64, 128 + n / 64 % 64, 128 + n % 64]

/-- Upper-case hex digit. -/
def hexDigit (n : Nat) : Char :=
  if n < 10 then Char.ofNat (48 + n) else Char.ofNat (55 + n)

/-- `%HH` escape of one byte. -/
def pctByte (b : Nat) : Str := [Char.ofNat 37, hexDigit (b / 16), hexDigit (b % 16)]

/-- JS `encodeURIComponent`. -/
def encodeURIComponent (s : Str) : Str :=
  s.flatMap (fun c => if uriUnreserved c then [c] else (utf8Bytes c).flatMap pctByte)

/-! ### The callback route handler -/

/-- Query parameters of the callback request (`searchParams.get` results;
`none` for an absent parameter, possibly-empty string otherwise). -/
structure CallbackParams where
  code : Option Str
  error : Option Str
  error_description : Option Str
deriving DecidableEq, Repr

/-- Outcome of the `transport.finishAuth(code)` token exchange, supplied as an
oracle: the token bundle the endpoint returned, or a thrown error (`some msg`
for an `Error` with that message). -/
inductive ExchangeOutcome where
  | ok (tokens : Tokens)
  | err (msg : Option Str)
deriving DecidableEq, Repr

/-- The result of the callback handler: a redirect `new URL(target, base)`,
or an exception escaping the handler (only `getAppUrl` can throw before the
`try`). -/
inductive CallbackOutcome where
  | redirect (base : Str) (target : Str)
  | thrown (msg : Str)
deriving DecidableEq, Repr

/-- Callback handler result: outcome, database afterwards, network calls
made. -/
structure CallbackResult where
  outcome : CallbackOutcome
  db : DB
  trace : List NetCall
deriving DecidableEq, Repr

/-- Relative redirect target `/?oauth_error=<encoded reason>`. -/
def errTarget (reason : Str) : Str :=
  ("/?oauth_error=").data ++ encodeURIComponent reason

/-- Relative redirect target `/?oauth_success=true&server=<encoded name>`. -/
def successTarget (name : Str) : Str :=
  ("/?oauth_success=true&server=").data ++ encodeURIComponent name

/-- The literal target for a missing authorization code. -/
def missingCodeTarget : Str := ("/?oauth_error=missing_code").data

/-- The literal target for an unknown server. -/
def serverNotFoundTarget : Str := ("/?oauth_error=server_not_found").data

/-- Message of the error thrown by `ServerOAuthProvider.codeVerifier()` when
no verifier is persisted. -/
def noVerifierMsg : Str := ("No code verifier stored").data

/-- Fallback message when the value thrown during the exchange is not an
`Error`. -/
def tokenExchangeFailedMsg : Str := ("Token exchange failed").data

/-- `GET /api/oauth/callback/[serverId]` from
`src/app/api/oauth/callback/[serverId]/route.ts`.

The handler resolves `getAppUrl()` first (throwing on misconfiguration),
short-circuits on a truthy `error` parameter or a missing/empty `code`,
looks the server up by id, and otherwise runs `transport.finishAuth(code)`:
the SDK reads the persisted verifier through
`ServerOAuthProvider.codeVerifier()` (which throws when none is stored,
before the token request) and on success stores the token bundle through
`ServerOAuthProvider.saveTokens` (which also sets status `CONNECTED`). -/
def callbackGET (cfg : Config) (exchange : ExchangeOutcome) (db : DB)
    (sid : Str) (p : CallbackParams) : CallbackResult :=
  match getAppUrl cfg with
  | .error m => { outcome := .thrown m, db := db, trace := [] }
  | .ok appUrl =>
    if strTruthy (p.error.getD []) then
      let desc := if strTruthy (p.error_description.getD []) then
          p.error_description.getD [] else p.error.getD []
      { outcome := .redirect appUrl (errTarget desc), db := db, trace := [] }
    else if !strTruthy (p.code.getD []) then
      { outcome := .redirect appUrl missingCodeTarget, db := db, trace := [] }
    else
      match dbFindUnique db sid with
      | none =>
        { outcome := .redirect appUrl serverNotFoundTarget, db := db, trace := [] }
      | some server =>
        if !strTruthy (server.url.getD []) then
          { outcome := .redirect appUrl serverNotFoundTarget, db := db, trace := [] }
        else
          match server.codeVerifier with
          | none =>
            -- finishAuth throws from codeVerifier() before the token request
            { outcome := .redirect appUrl (errTarget noVerifierMsg),
              db := updateServerOAuthStatus db sid sREQUIRED,
              trace := [] }
          | some _ =>
            match exchange with
            | .ok tk =>
              let db1 := dbUpdate db sid (fun s =>
                { s with authTokens := some tk, oauthStatus := some sCONNECTED })
              let db2 := dbUpdate db1 sid (fun s =>
                { s with oauthStatus := some sCONNECTED,
                         requiresAuth := some true,
                         codeVerifier := none })
              { outcome := .redirect appUrl (successTarget server.name),
                db := db2, trace := [.tokenExchange] }
            | .err m =>
              { outcome := .redirect appUrl (errTarget (m.getD tokenExchangeFailedMsg)),
                db := updateServerOAuthStatus db sid sREQUIRED,
                trace := [.tokenExchange] }

/-! ### The check route handler -/

/-- Protected-resource metadata, as far as the route inspects it. -/
structure ResourceMeta where
  authorization_servers : Option (List Str)
deriving DecidableEq, Repr

/-- Authorization-server metadata, as far as the route inspects it. -/
structure AuthServerMeta where
  registration_endpoint : Option Str
deriving DecidableEq, Repr

/-- A thrown JS value: `some msg` when it is an `Error` carrying `msg`. -/
abbrev Thrown := Option Str

instance {ε α : Type} [DecidableEq ε] [DecidableEq α] :
    DecidableEq (Except ε α) := fun a b =>
  match a, b with
  | .ok x, .ok y =>
    if h : x = y then .isTrue (by rw [h]) else .isFalse (by intro hc; injection hc; contradiction)
  | .ok _, .error _ => .isFalse (by intro hc; exact Except.noConfusion hc)
  | .error _, .ok _ => .isFalse (by intro hc; exact Except.noConfusion hc)
  | .error x, .error y =>
    if h : x = y then .isTrue (by rw [h]) else .isFalse (by intro hc; injection hc; contradiction)

/-- Oracles for the outbound calls the check route can make, one per call
site, supplied per invocation. -/
structure CheckEnv where
  fetchOutcome : FetchOutcome
  resourceMeta : Except Thrown (Option ResourceMeta)
  authServerMeta : Except Thrown (Option AuthServerMeta)
  register : Except Thrown ClientInfo
  startAuth : Except Thrown (Str × Str)
deriving DecidableEq, Repr

/-- The `CheckOAuthResponse` body. -/
structure CheckOAuthResponse where
  serverId : Str
  requiresAuth : Bool
  connected : Bool
  oauthStatus : Str
  authorizationUrl : Option Str := none
  error : Option Str := none
deriving DecidableEq, Repr

/-- Check handler result: HTTP status, JSON body, database afterwards,
network calls made. -/
structure CheckResult where
  httpStatus : Nat
  body : CheckOAuthResponse
  db : DB
  trace : List NetCall
deriving DecidableEq, Repr

def serverNotFoundMsg : Str := ("HTTP server not found").data
def noAuthServerMsg : Str :=
  ("Could not find authorization server in resource metadata").data
def noAuthServerMetaMsg : Str :=
  ("Could not discover authorization server metadata").data
def noDynRegMsg : Str :=
  ("Server does not support dynamic client registration").data
def failedAuthUrlMsg : Str := ("Failed to generate authorization URL").data

/-- A body with `requiresAuth: true, connected: false, oauthStatus:
REQUIRED`, as every response of the route's `try`/`catch` region carries. -/
def requiredBody (sid : Str) (authUrl : Option Str) (err : Option Str) :
    CheckOAuthResponse :=
  { serverId := sid, requiresAuth := true, connected := false,
    oauthStatus := sREQUIRED, authorizationUrl := authUrl, error := err }

/-- The `catch` of the check route: a 200 response carrying the error
message (or the fallback when the thrown value is not an `Error`). -/
def checkCatch (sid : Str) (m : Thrown) (db : DB) (trace : List NetCall) :
    CheckResult :=
  { httpStatus := 200,
    body := requiredBody sid none (some (m.getD failedAuthUrlMsg)),
    db := db, trace := trace }

/-- The tail of the `try` block: `startAuthorization` (whose arguments read
`authProvider.redirectUrl`, hence `getAppUrl`) followed by
`saveCodeVerifier`. -/
def startAuthPart (cfg : Config) (env : CheckEnv) (db : DB) (sid : Str)
    (trace : List NetCall) : CheckResult :=
  match getAppUrl cfg with
  | .error m => checkCatch sid (some m) db trace
  | .ok _ =>
    match env.startAuth with
    | .error m => checkCatch sid m db trace
    | .ok (authUrl, verifier) =>
      { httpStatus := 200,
        body := requiredBody sid (some authUrl) none,
        db := dbUpdate db sid (fun s => { s with codeVerifier := some verifier }),
        trace := trace }

/-- The `try` block of the check route: resource-metadata discovery,
authorization-server metadata discovery, cached-or-dynamic client
registration (`registerClient`'s argument object reads
`authProvider.clientMetadata`, hence `getAppUrl`, before the network call),
then authorization start. -/
def tryAuthorize (cfg : Config) (env : CheckEnv) (db : DB) (sid : Str) :
    CheckResult :=
  match env.resourceMeta with
  | .error m => checkCatch sid m db [.probe, .resourceMetaFetch]
  | .ok rm =>
    match (rm.bind (·.authorization_servers)).getD [] with
    | [] =>
      { httpStatus := 200,
        body := requiredBody sid none (some noAuthServerMsg),
        db := db, trace := [.probe, .resourceMetaFetch] }
    | _ :: _ =>
      match env.authServerMeta with
      | .error m => checkCatch sid m db [.probe, .resourceMetaFetch, .authServerMetaFetch]
      | .ok none =>
        { httpStatus := 200,
          body := requiredBody sid none (some noAuthServerMetaMsg),
          db := db, trace := [.probe, .resourceMetaFetch, .authServerMetaFetch] }
      | .ok (some meta) =>
        match (dbFindUnique db sid).bind (·.clientInfo) with
        | some _ =>
          startAuthPart cfg env db sid [.probe, .resourceMetaFetch, .authServerMetaFetch]
        | none =>
          match meta.registration_endpoint with
          | none =>
            { httpStatus := 200,
              body := requiredBody sid none (some noDynRegMsg),
              db := db,
              trace := [.probe, .resourceMetaFetch, .authServerMetaFetch] }
          | some _ =>
            match getAppUrl cfg with
            | .error m =>
              checkCatch sid (some m) db [.probe, .resourceMetaFetch, .authServerMetaFetch]
            | .ok _ =>
              match env.register with
              | .error m =>
                checkCatch sid m db
                  [.probe, .resourceMetaFetch, .authServerMetaFetch, .register]
              | .ok ci =>
                startAuthPart cfg env
                  (dbUpdate db sid (fun s => { s with clientInfo := some ci })) sid
                  [.probe, .resourceMetaFetch, .authServerMetaFetch, .register]

/-- Detection onward: the probe, the `NOT_REQUIRED` early return, or the
`REQUIRED` write followed by the `try` block. -/
def checkDetect (cfg : Config) (env : CheckEnv) (db : DB) (sid : Str) :
    CheckResult :=
  let detection := detectOAuthRequirement env.fetchOutcome
  if !detection.requiresAuth then
    { httpStatus := 200,
      body := { serverId := sid, requiresAuth := false, connected := false,
                oauthStatus := sNOT_REQUIRED },
      db := updateServerOAuthStatus db sid sNOT_REQUIRED,
      trace := [.probe] }
  else
    tryAuthorize cfg env (updateServerOAuthStatus db sid sREQUIRED) sid

/-- `GET /api/oauth/check/[serverId]` from
`src/app/api/oauth/check/[serverId]/route.ts`. -/
def checkGET (cfg : Config) (nowMs : ℚ) (env : CheckEnv) (db : DB)
    (sid : Str) : CheckResult :=
  match dbFindFirstHttp db sid with
  | none =>
    { httpStatus := 404,
      body := { serverId := sid, requiresAuth := false, connected := false,
                oauthStatus := sNOT_REQUIRED, error := some serverNotFoundMsg },
      db := db, trace := [] }
  | some server =>
    if server.oauthStatus == some sCONNECTED && server.authTokens.isSome then
      if !isTokenExpired nowMs server.authTokens then
        { httpStatus := 200,
          body := { serverId := sid, requiresAuth := true, connected := true,
                    oauthStatus := sCONNECTED },
          db := db, trace := [] }
      else
        checkDetect cfg env (updateServerOAuthStatus db sid sEXPIRED) sid
    else
      checkDetect cfg env db sid

section SanityChecks

example :
    detectOAuthRequirement
      (.success ⟨401, some (("Bearer resource_metadata=").data ++ [quoteChar]
          ++ ("https://x.example/m").data ++ [quoteChar])⟩)
      = { requiresAuth := true,
          resourceMetadataUrl := some (("https://x.example/m").data) } := by
  decide

example :
    detectOAuthRequirement (.success ⟨200, none⟩) = { requiresAuth := false } := by
  decide

example :
    detectOAuthRequirement (.success ⟨401, some (("Bearer").data)⟩)
      = { requiresAuth := true } := by
  decide

example :
    extractResourceMetadataUrl (("Bearer realm=").data ++ [quoteChar]
        ++ ("mcp").data ++ [quoteChar]) = some (("mcp").data) := by
  decide

example : isTokenExpired 1700000000000 (some ⟨some (1700000000 - 1)⟩) = true := by
  norm_num [isTokenExpired]

example : isTokenExpired 1700000000000 (some ⟨some (1700000000 + 120)⟩) = false := by
  norm_num [isTokenExpired]

example : isTokenExpired 1700000000000 (some ⟨some 0⟩) = false := by
  norm_num [isTokenExpired]

example : getAppUrl ⟨none, ("production").data⟩ = .error misconfigMsg := rfl

example : getAppUrl ⟨some (("https://a.example/").data), ("production").data⟩
    = .ok (("https://a.example").data) := by
  simp [getAppUrl, strTruthy, stripTrailingSlash]

/-- A sample server row awaiting detection. -/
def sampleServer : MCPServer :=
  { id := ("s1").data, name := ("Ex").data, type := httpLit,
    url := some (("https://mcp.example/x").data), requiresAuth := some false,
    authTokens := none, clientInfo := none, codeVerifier := none,
    oauthStatus := some sUNKNOWN }

/-- A happy-path environment: 401+Bearer probe, metadata present,
registration and authorization start succeed. -/
def happyEnv : CheckEnv :=
  { fetchOutcome := .success ⟨401, some (("Bearer resource_metadata=").data
      ++ [quoteChar] ++ ("https://mcp.example/.well-known/r").data ++ [quoteChar])⟩,
    resourceMeta := .ok (some ⟨some [("https://as.example").data]⟩),
    authServerMeta := .ok (some ⟨some (("https://as.example/reg").data)⟩),
    register := .ok ⟨("cid-1").data⟩,
    startAuth := .ok (("https://as.example/authorize?x=1").data, ("ver-1").data) }

def devCfg : Config := ⟨none, devEnv⟩

def prodNoUrlCfg : Config := ⟨none, ("production").data⟩

example :
    (checkGET devCfg 0 happyEnv [sampleServer] (("nope").data)).httpStatus = 404 := by
  decide

example :
    (checkGET devCfg 0 happyEnv [sampleServer] (("s1").data)).body
      = requiredBody (("s1").data) (some (("https://as.example/authorize?x=1").data)) none := by
  decide

example :
    (checkGET devCfg 0 happyEnv [sampleServer] (("s1").data)).trace
      = [.probe, .resourceMetaFetch, .authServerMetaFetch, .register] := by
  decide

example :
    (checkGET devCfg 0 happyEnv [sampleServer] (("s1").data)).db.map
        (fun s => (s.oauthStatus, s.clientInfo, s.codeVerifier))
      = [(some sREQUIRED, some ⟨("cid-1").data⟩, some (("ver-1").data))] := by
  decide

example :
    (checkGET prodNoUrlCfg 0 happyEnv [sampleServer] (("s1").data)).body.error
      = some misconfigMsg := by
  decide

example :
    (checkGET prodNoUrlCfg 0 happyEnv [sampleServer] (("s1").data)).trace
      = [.probe, .resourceMetaFetch, .authServerMetaFetch] := by
  decide

/-- A server awaiting its callback, verifier persisted. -/
def awaitingServer : MCPServer :=
  { sampleServer with oauthStatus := some sREQUIRED,
                      clientInfo := some ⟨("cid-1").data⟩,
                      codeVerifier := some (("ver-1").data) }

example :
    (callbackGET devCfg (.ok ⟨some 99⟩) [awaitingServer] (("s1").data)
        ⟨some (("c0").data), none, none⟩).db.map
        (fun s => (s.oauthStatus, s.codeVerifier, s.authTokens))
      = [(some sCONNECTED, none, some ⟨some 99⟩)] := by
  decide

example :
    (callbackGET devCfg (.err (some (("boom").data))) [awaitingServer] (("s1").data)
        ⟨some (("c0").data), none, none⟩).db.map
        (fun s => (s.oauthStatus, s.codeVerifier))
      = [(some sREQUIRED, some (("ver-1").data))] := by
  decide

example :
    (callbackGET devCfg (.ok ⟨none⟩) [awaitingServer] (("s1").data)
        ⟨none, some (("access_denied").data), some (("User declined").data)⟩)
      = { outcome := .redirect devFallbackUrl (("/?oauth_error=User%20declined").data),
          db := [awaitingServer], trace := [] } := by
  decide

end SanityChecks

/-! ## Helper lemmas about the challenge-header scanner -/

/-- All non-empty suffixes of `pre` fail to start a match of `key` (each
check confined to the concrete region `pre`). -/
def suffixesOk (key pre : Str) : Bool :=
  pre.tails.all (fun q => q.isEmpty || !strIsPrefixOf (key.take q.length) q)

lemma takeNonQuote_append_quote (X t : Str) (hX : quoteChar ∉ X) :
    takeNonQuote (X ++ quoteChar :: t) = X := by
  induction X with
  | nil => simp [takeNonQuote]
  | cons c cs ih =>
    simp only [List.mem_cons, not_or] at hX
    simp [takeNonQuote, Ne.symm hX.1, ih hX.2]

lemma isPrefixOf_append_self (k t : Str) : strIsPrefixOf k (k ++ t) = true := by
  simp [strIsPrefixOf, List.isPrefixOf_iff_prefix]

lemma isPrefixOf_false_of_take (key q s : Str)
    (hq : strIsPrefixOf (key.take q.length) q = false) :
    strIsPrefixOf key (q ++ s) = false := by
  induction q generalizing key with
  | nil => simp [strIsPrefixOf, List.isPrefixOf] at hq
  | cons c cs ih =>
    cases key with
    | nil => simp [strIsPrefixOf, List.isPrefixOf] at hq
    | cons k ks =>
      simp only [List.length_cons, List.take_succ_cons, strIsPrefixOf,
        List.isPrefixOf, Bool.and_eq_false_iff] at hq ⊢
      rcases hq with h | h
      · exact Or.inl h
      · exact Or.inr (ih ks h)

lemma scanKey_skip_pre (key pre s : Str) (h : suffixesOk key pre = true) :
    scanKey key (pre ++ s) = scanKey key s := by
  induction pre with
  | nil => simp
  | cons c cs ih =>
    have h0 : strIsPrefixOf (key.take (c :: cs).length) (c :: cs) = false := by
      simp only [suffixesOk, List.all_eq_true] at h
      have := h (c :: cs) (by simp [List.mem_tails])
      simpa using this
    have hrest : suffixesOk key cs = true := by
      simp only [suffixesOk, List.all_eq_true] at h ⊢
      intro q hq
      exact h q (by
        rw [List.mem_tails] at hq ⊢
        exact hq.trans (List.suffix_cons c cs))
    have hfail : strIsPrefixOf key ((c :: cs) ++ s) = false :=
      isPrefixOf_false_of_take key (c :: cs) s h0
    rw [List.cons_append, scanKey,
      if_neg (by simp [List.cons_append] at hfail ⊢; simp [hfail])]
    exact ih hrest

lemma scanKey_key_match (key X t : Str) (hkey : key ≠ []) (hne : X ≠ [])
    (hX : quoteChar ∉ X) :
    scanKey key (key ++ (X ++ quoteChar :: t)) = some X := by
  cases key with
  | nil => exact absurd rfl hkey
  | cons k ks =>
    rw [List.cons_append, scanKey]
    rw [if_pos (by
      simpa [List.cons_append] using
        isPrefixOf_append_self (k :: ks) (X ++ quoteChar :: t))]
    simp only [← List.cons_append, List.drop_left]
    rw [takeNonQuote_append_quote X t hX]
    simp [hne, List.drop_left]

lemma scanKey_no_occurrence (key s : Str) (h : containsSub key s = false) :
    scanKey key s = none := by
  induction s with
  | nil => simp [scanKey]
  | cons c rest ih =>
    simp only [containsSub, Bool.or_eq_false_iff] at h
    rw [scanKey, if_neg (by simp [h.1])]
    exact ih h.2

lemma containsSub_append_self (pat t : Str) (h : pat ≠ []) :
    containsSub pat (pat ++ t) = true := by
  cases pat with
  | nil => exact absurd rfl h
  | cons p ps =>
    rw [List.cons_append, containsSub, ← List.cons_append,
      isPrefixOf_append_self, Bool.true_or]

/-- A 401 challenge `Bearer resource_metadata="X"`. -/
def bearerRMChallenge (X : Str) : Str :=
  ("Bearer ").data ++ rmKey ++ X ++ [quoteChar]

/-- A 401 challenge `Bearer realm="X"`. -/
def bearerRealmChallenge (X : Str) : Str :=
  ("Bearer ").data ++ realmKey ++ X ++ [quoteChar]

lemma bearer_named_of_prefix (rest : Str) :
    containsSub bearerLit (strToLower (("Bearer ").data ++ rest)) = true := by
  have h1 : strToLower (("Bearer ").data ++ rest)
      = bearerLit ++ (' ' :: strToLower rest) := by
    simp only [strToLower, List.map_append]
    rw [show (("Bearer ").data).map Char.toLower = bearerLit ++ [' '] from by decide,
      List.append_assoc]
    rfl
  rw [h1]
  exact containsSub_append_self bearerLit _ (by decide)

lemma extract_rm_challenge (X : Str) (hne : X ≠ []) (hX : quoteChar ∉ X) :
    extractResourceMetadataUrl (bearerRMChallenge X) = some X := by
  have h1 : bearerRMChallenge X
      = ("Bearer ").data ++ (rmKey ++ (X ++ quoteChar :: [])) := by
    simp [bearerRMChallenge]
  rw [extractResourceMetadataUrl, h1,
    scanKey_skip_pre rmKey (("Bearer ").data) _ (by decide),
    scanKey_key_match rmKey X [] (by decide) hne hX]

lemma extract_realm_challenge (X : Str) (hne : X ≠ []) (hX : quoteChar ∉ X)
    (hno : containsSub rmKey (bearerRealmChallenge X) = false) :
    extractResourceMetadataUrl (bearerRealmChallenge X) = some X := by
  have h1 : bearerRealmChallenge X
      = ("Bearer ").data ++ (realmKey ++ (X ++ quoteChar :: [])) := by
    simp [bearerRealmChallenge]
  rw [extractResourceMetadataUrl, scanKey_no_occurrence rmKey _ hno, h1,
    scanKey_skip_pre realmKey (("Bearer ").data) _ (by decide),
    scanKey_key_match realmKey X [] (by decide) hne hX]

/-! ## Helper lemmas about database lookups and updates -/

/-- The row update functions the flow uses never change a row's key
columns. -/
def keyPreserving (f : MCPServer → MCPServer) : Prop :=
  ∀ s, (f s).id = s.id ∧ (f s).type = s.type ∧ (f s).url = s.url ∧
    (f s).name = s.name

lemma dbFindUnique_dbUpdate_self (db : DB) (sid : Str)
    (f : MCPServer → MCPServer) (hf : keyPreserving f) :
    dbFindUnique (dbUpdate db sid f) sid = (dbFindUnique db sid).map f := by
  simp only [dbFindUnique]
  rw [dbUpdate, List.find?_map]
  have hpred : ((fun s : MCPServer => s.id == sid) ∘
      fun s => if s.id == sid then f s else s) = fun s : MCPServer => s.id == sid := by
    funext s
    by_cases h : s.id == sid
    · simp [Function.comp, h, (hf s).1]
    · simp [Function.comp, h]
  rw [hpred]
  cases hfind : db.find? (fun s => s.id == sid) with
  | none => simp
  | some s =>
    have hs := List.find?_some hfind
    simp only [Option.map_some']
    congr 1
    simp only [hs, if_true]

lemma dbFindFirstHttp_dbUpdate_self (db : DB) (sid : Str)
    (f : MCPServer → MCPServer) (hf : keyPreserving f) :
    dbFindFirstHttp (dbUpdate db sid f) sid = (dbFindFirstHttp db sid).map f := by
  simp only [dbFindFirstHttp]
  rw [dbUpdate, List.find?_map]
  have hpred : ((fun s : MCPServer => s.id == sid && s.type == httpLit && s.url.isSome) ∘
      fun s => if s.id == sid then f s else s)
      = fun s : MCPServer => s.id == sid && s.type == httpLit && s.url.isSome := by
    funext s
    by_cases h : s.id == sid
    · simp [Function.comp, h, (hf s).1, (hf s).2.1, (hf s).2.2.1]
    · simp [Function.comp, h]
  rw [hpred]
  cases hfind : db.find? (fun s => s.id == sid && s.type == httpLit && s.url.isSome) with
  | none => simp
  | some s =>
    have hs := List.find?_some hfind
    simp only [Option.map_some']
    congr 1
    have : (s.id == sid) = true := by
      simp only [Bool.and_eq_true] at hs
      exact hs.1.1
    simp only [this, if_true]

lemma dbUpdate_comp (db : DB) (sid : Str) (f g : MCPServer → MCPServer)
    (hf : keyPreserving f) :
    dbUpdate (dbUpdate db sid f) sid g = dbUpdate db sid (fun s => g (f s)) := by
  rw [dbUpdate, dbUpdate, dbUpdate, List.map_map]
  apply List.map_congr_left
  intro s _
  by_cases h : s.id == sid
  · simp [Function.comp, h, (hf s).1]
  · simp [Function.comp, h]

/-! ## Claims -/

/-- **C3.** Detection is deterministic on a fixed response: a 401 whose
`WWW-Authenticate` challenge names the Bearer scheme yields
`requiresAuth=true` with `resourceMetadataUrl` equal to the challenge's
`resource_metadata` parameter when present, else the `realm` parameter as
fallback, else `undefined`; a 200 response yields `requiresAuth=false`. -/
theorem detection_deterministic (X : Str) (hne : X ≠ []) (hX : quoteChar ∉ X)
    (hno : containsSub rmKey (bearerRealmChallenge X) = false)
    (r : HttpResponse) (h200 : r.status = 200) :
    detectOAuthRequirement (.success ⟨401, some (bearerRMChallenge X)⟩)
      = { requiresAuth := true, resourceMetadataUrl := some X } ∧
    detectOAuthRequirement (.success ⟨401, some (bearerRealmChallenge X)⟩)
      = { requiresAuth := true, resourceMetadataUrl := some X } ∧
    detectOAuthRequirement (.success ⟨401, some (("Bearer").data)⟩)
      = { requiresAuth := true } ∧
    detectOAuthRequirement (.success r) = { requiresAuth := false } := by
  have hdet : ∀ w : Str, strTruthy w = true →
      containsSub bearerLit (strToLower w) = true →
      detectOAuthRequirement (.success ⟨401, some w⟩)
        = { requiresAuth := true,
            resourceMetadataUrl := extractResourceMetadataUrl w } := by
    intro w hw hb
    simp [detectOAuthRequirement, hw, hb]
  refine ⟨?_, ?_, by decide, by simp [detectOAuthRequirement, h200]⟩
  · have hshape : bearerRMChallenge X
        = ("Bearer ").data ++ (rmKey ++ (X ++ [quoteChar])) := by
      simp [bearerRMChallenge]
    have ht : strTruthy (bearerRMChallenge X) = true := by
      rw [hshape]; simp [strTruthy]
    have hb : containsSub bearerLit (strToLower (bearerRMChallenge X)) = true := by
      rw [hshape]; exact bearer_named_of_prefix _
    rw [hdet _ ht hb, extract_rm_challenge X hne hX]
  · have hshape : bearerRealmChallenge X
        = ("Bearer ").data ++ (realmKey ++ (X ++ [quoteChar])) := by
      simp [bearerRealmChallenge]
    have ht : strTruthy (bearerRealmChallenge X) = true := by
      rw [hshape]; simp [strTruthy]
    have hb : containsSub bearerLit (strToLower (bearerRealmChallenge X)) = true := by
      rw [hshape]; exact bearer_named_of_prefix _
    rw [hdet _ ht hb, extract_realm_challenge X hne hX hno]

/-- Witness for C3 at `X = "https://x.example/m"` and a concrete 200. -/
theorem detection_deterministic_witness :
    detectOAuthRequirement
        (.success ⟨401, some (bearerRMChallenge (("https://x.example/m").data))⟩)
      = { requiresAuth := true,
          resourceMetadataUrl := some (("https://x.example/m").data) } :=
  (detection_deterministic (("https://x.example/m").data) (by decide) (by decide)
    (by decide) ⟨200, none⟩ rfl).1

/-- **C4.** A non-401 response, or a transport failure, yields
`requiresAuth=false`; on transport failure the reason is reported in the
`error` field.  (The embedding is a total function: no exception escapes
`detectOAuthRequirement`.) -/
theorem detection_non401_and_transport_failure (r : HttpResponse)
    (h : r.status ≠ 401) (m : Option Str) :
    detectOAuthRequirement (.success r) = { requiresAuth := false } ∧
    detectOAuthRequirement (.failure m)
      = { requiresAuth := false, error := some (m.getD unknownErrorMsg) } := by
  constructor
  · simp [detectOAuthRequirement, h]
  · rfl

/-- Witness for C4 at a 503 response and a DNS failure. -/
theorem detection_non401_witness :
    detectOAuthRequirement (.success ⟨503, none⟩) = { requiresAuth := false } ∧
    detectOAuthRequirement (.failure (some (("fetch failed").data)))
      = { requiresAuth := false, error := some (("fetch failed").data) } :=
  detection_non401_and_transport_failure ⟨503, none⟩ (by decide)
    (some (("fetch failed").data))

/-- **C5, counterexample.** A bundle with `expires_at = 0` is reported valid
even though the current time exceeds `expires_at - 60`: `0` is JS-falsy, so
`!tokens.expires_at` treats it as "no expiry info". -/
theorem token_expiry_zero_counterexample :
    isTokenExpired 1700000000000 (some ⟨some 0⟩) = false ∧
    ((1700000000000 : ℚ) / 1000 > 0 - 60) := by
  constructor
  · norm_num [isTokenExpired]
  · norm_num

/-- **C5, amended.** `isTokenExpired` reports expired exactly when
`expires_at` is present with a nonzero value and the current time exceeds
`expires_at - 60`; a bundle with absent (or zero) `expires_at`, or a
null/undefined bundle, is valid. -/
theorem token_expiry_amended (nowMs : ℚ) (tokens : Option Tokens) :
    isTokenExpired nowMs tokens = true ↔
      ∃ tk t, tokens = some tk ∧ tk.expires_at = some t ∧ t ≠ 0 ∧
        nowMs / 1000 > t - 60 := by
  match tokens with
  | none => simp [isTokenExpired]
  | some tk =>
    match h : tk.expires_at with
    | none => simp [isTokenExpired, h]
    | some t =>
      by_cases h0 : t = 0
      · subst h0
        simp [isTokenExpired, h]
      · simp only [isTokenExpired, h, if_neg h0, decide_eq_true_eq]
        constructor
        · intro hgt
          exact ⟨tk, t, rfl, h, h0, hgt⟩
        · rintro ⟨tk', t', htk, ht, -, hgt⟩
          injection htk with htk
          subst htk
          rw [h] at ht
          injection ht with ht
          subst ht
          exact hgt

/-- **C10.** A `serverId` that does not identify a stored `http` server with
a non-null URL yields a 404 with `requiresAuth=false`, `connected=false`,
`oauthStatus=NOT_REQUIRED`, error `"HTTP server not found"`, an unchanged
database and no network call. -/
theorem check_unknown_server (cfg : Config) (nowMs : ℚ) (env : CheckEnv)
    (db : DB) (sid : Str) (h : dbFindFirstHttp db sid = none) :
    checkGET cfg nowMs env db sid =
      { httpStatus := 404,
        body := { serverId := sid, requiresAuth := false, connected := false,
                  oauthStatus := sNOT_REQUIRED, authorizationUrl := none,
                  error := some serverNotFoundMsg },
        db := db, trace := [] } := by
  simp [checkGET, h]

/-- Witness for C10: a database holding only a stdio server. -/
theorem check_unknown_server_witness :
    checkGET devCfg 0 happyEnv [{ sampleServer with type := ("stdio").data }]
        (("s1").data) =
      { httpStatus := 404,
        body := { serverId := ("s1").data, requiresAuth := false,
                  connected := false, oauthStatus := sNOT_REQUIRED,
                  authorizationUrl := none, error := some serverNotFoundMsg },
        db := [{ sampleServer with type := ("stdio").data }], trace := [] } :=
  check_unknown_server devCfg 0 happyEnv _ _ (by decide)

/-- The persisted `codeVerifier` of the row with the given id. -/
def persistedVerifier (db : DB) (sid : Str) : Option Str :=
  (dbFindUnique db sid).bind (·.codeVerifier)

/-- The persisted `oauthStatus` of the row with the given id. -/
def persistedStatus (db : DB) (sid : Str) : Option Str :=
  (dbFindUnique db sid).bind (·.oauthStatus)

/-- **C7, counterexample.** A callback carrying `error=access_denied` and a
present-but-empty `error_description` redirects with
`oauth_error=access_denied`, not with the URL-encoded (empty)
`error_description`: `errorDescription || error` falls back on the JS-falsy
empty string. -/
theorem callback_empty_description_counterexample :
    (callbackGET devCfg (.ok ⟨none⟩) [awaitingServer] (("s1").data)
        ⟨none, some (("access_denied").data), some []⟩).outcome
      = .redirect devFallbackUrl (errTarget (("access_denied").data)) ∧
    errTarget (("access_denied").data) ≠ errTarget [] := by
  constructor
  · decide
  · decide

/-- **C7, amended.** Whenever `getAppUrl` succeeds, the callback handler
always redirects to the application root with either
`oauth_success=true&server=<name>` or `oauth_error=<reason>`; when the
provider reports a non-empty `error` together with a **non-empty**
`error_description`, the `oauth_error` value is the URL-encoded
`error_description`. -/
theorem callback_always_redirects (cfg : Config) (ex : ExchangeOutcome)
    (db : DB) (sid : Str) (p : CallbackParams) (u : Str)
    (hcfg : getAppUrl cfg = .ok u) :
    (∃ t, (callbackGET cfg ex db sid p).outcome = .redirect u t ∧
      ((∃ n, t = successTarget n) ∨
       (∃ r, t = ("/?oauth_error=").data ++ r))) ∧
    (∀ e d, p.error = some e → strTruthy e = true →
      p.error_description = some d → strTruthy d = true →
      (callbackGET cfg ex db sid p).outcome = .redirect u (errTarget d)) := by
  constructor
  · by_cases he : strTruthy (p.error.getD []) = true
    · refine ⟨errTarget (if strTruthy (p.error_description.getD []) then
        p.error_description.getD [] else p.error.getD []), ?_, ?_⟩
      · simp [callbackGET, hcfg, he]
      · exact Or.inr ⟨_, rfl⟩
    · rw [Bool.not_eq_true] at he
      by_cases hc : strTruthy (p.code.getD []) = true
      · cases hfind : dbFindUnique db sid with
        | none =>
          refine ⟨serverNotFoundTarget, ?_, Or.inr ⟨("server_not_found").data, by decide⟩⟩
          simp [callbackGET, hcfg, he, hc, hfind]
        | some server =>
          by_cases hurl : strTruthy (server.url.getD []) = true
          · cases hver : server.codeVerifier with
            | none =>
              refine ⟨errTarget noVerifierMsg, ?_, Or.inr ⟨_, rfl⟩⟩
              simp [callbackGET, hcfg, he, hc, hfind, hurl, hver]
            | some v =>
              cases ex with
              | ok tk =>
                refine ⟨successTarget server.name, ?_, Or.inl ⟨_, rfl⟩⟩
                simp [callbackGET, hcfg, he, hc, hfind, hurl, hver]
              | err m =>
                refine ⟨errTarget (m.getD tokenExchangeFailedMsg), ?_, Or.inr ⟨_, rfl⟩⟩
                simp [callbackGET, hcfg, he, hc, hfind, hurl, hver]
          · rw [Bool.not_eq_true] at hurl
            refine ⟨serverNotFoundTarget, ?_, Or.inr ⟨("server_not_found").data, by decide⟩⟩
            simp [callbackGET, hcfg, he, hc, hfind, hurl]
      · rw [Bool.not_eq_true] at hc
        refine ⟨missingCodeTarget, ?_, Or.inr ⟨("missing_code").data, by decide⟩⟩
        simp [callbackGET, hcfg, he, hc]
  · intro e d herr htruthy hdesc hdtruthy
    have he : strTruthy (p.error.getD []) = true := by
      rw [herr]; exact htruthy
    have hd : strTruthy (p.error_description.getD []) = true := by
      rw [hdesc]; exact hdtruthy
    have hgd : p.error_description.getD [] = d := by rw [hdesc]; rfl
    simp [callbackGET, hcfg, he, hd, hgd, hdtruthy]

/-- Witness for C7 at a failed-exchange callback in development config. -/
theorem callback_always_redirects_witness :
    ∃ t, (callbackGET devCfg (.err none) [awaitingServer] (("s1").data)
        ⟨some (("c0").data), none, none⟩).outcome = .redirect devFallbackUrl t ∧
      ((∃ n, t = successTarget n) ∨ (∃ r, t = ("/?oauth_error=").data ++ r)) :=
  (callback_always_redirects devCfg (.err none) [awaitingServer] (("s1").data)
    ⟨some (("c0").data), none, none⟩ devFallbackUrl rfl).1

/-- **C1, counterexample.** The spec's own scenario: a callback carrying
`error=access_denied&error_description=User+declined` for a server whose
`codeVerifier` is persisted leaves the database untouched — the verifier is
*not* cleared (and the status is not set by this branch). -/
theorem callback_verifier_counterexample :
    awaitingServer.codeVerifier = some (("ver-1").data) ∧
    (callbackGET devCfg (.ok ⟨none⟩) [awaitingServer] (("s1").data)
        ⟨none, some (("access_denied").data), some (("User declined").data)⟩).db
      = [awaitingServer] ∧
    persistedVerifier
      (callbackGET devCfg (.ok ⟨none⟩) [awaitingServer] (("s1").data)
        ⟨none, some (("access_denied").data), some (("User declined").data)⟩).db
      (("s1").data) = some (("ver-1").data) := by
  refine ⟨rfl, by decide, by decide⟩

/-- **C1, amended.** Whenever `getAppUrl` succeeds: the error and
missing-code short-circuits leave the database unchanged (the verifier
persists); a successful exchange clears the verifier and sets status
`CONNECTED`; a failed exchange sets status `REQUIRED` but leaves the
verifier unchanged.  The verifier is cleared only on success. -/
theorem callback_verifier_amended (cfg : Config) (ex : ExchangeOutcome)
    (db : DB) (sid : Str) (p : CallbackParams) (u : Str)
    (server : MCPServer)
    (hcfg : getAppUrl cfg = .ok u)
    (hfind : dbFindUnique db sid = some server) :
    (strTruthy (p.error.getD []) = true →
      (callbackGET cfg ex db sid p).db = db) ∧
    (strTruthy (p.error.getD []) = false → strTruthy (p.code.getD []) = false →
      (callbackGET cfg ex db sid p).db = db) ∧
    (strTruthy (p.error.getD []) = false → strTruthy (p.code.getD []) = true →
      strTruthy (server.url.getD []) = true → server.codeVerifier.isSome = true →
      ∀ tk, ex = .ok tk →
        persistedVerifier (callbackGET cfg ex db sid p).db sid = none ∧
        persistedStatus (callbackGET cfg ex db sid p).db sid = some sCONNECTED) ∧
    (strTruthy (p.error.getD []) = false → strTruthy (p.code.getD []) = true →
      strTruthy (server.url.getD []) = true → server.codeVerifier.isSome = true →
      ∀ m, ex = .err m →
        persistedVerifier (callbackGET cfg ex db sid p).db sid = server.codeVerifier ∧
        persistedStatus (callbackGET cfg ex db sid p).db sid = some sREQUIRED) := by
  refine ⟨?_, ?_, ?_, ?_⟩
  · intro he
    simp [callbackGET, hcfg, he]
  · intro he hc
    simp [callbackGET, hcfg, he, hc]
  · intro he hc hurl hver tk hex
    subst hex
    obtain ⟨v, hv⟩ := Option.isSome_iff_exists.mp hver
    have hdb : (callbackGET cfg (.ok tk) db sid p).db
        = dbUpdate db sid (fun s =>
            { s with authTokens := some tk, oauthStatus := some sCONNECTED,
                     requiresAuth := some true, codeVerifier := none }) := by
      simp only [callbackGET, hcfg, he, Bool.false_eq_true, if_false, hc,
        Bool.not_true, hfind, hurl, hv]
      rw [dbUpdate_comp db sid _ _ (by intro s; exact ⟨rfl, rfl, rfl, rfl⟩)]
    rw [hdb]
    unfold persistedVerifier persistedStatus
    rw [dbFindUnique_dbUpdate_self db sid
      (fun s => { s with authTokens := some tk, oauthStatus := some sCONNECTED,
                         requiresAuth := some true, codeVerifier := none })
      (by intro s; exact ⟨rfl, rfl, rfl, rfl⟩), hfind]
    exact ⟨rfl, rfl⟩
  · intro he hc hurl hver m hex
    subst hex
    obtain ⟨v, hv⟩ := Option.isSome_iff_exists.mp hver
    have hdb : (callbackGET cfg (.err m) db sid p).db
        = updateServerOAuthStatus db sid sREQUIRED := by
      simp only [callbackGET, hcfg, he, Bool.false_eq_true, if_false, hc,
        Bool.not_true, hfind, hurl, hv]
    rw [hdb]
    unfold persistedVerifier persistedStatus updateServerOAuthStatus
    rw [dbFindUnique_dbUpdate_self db sid
      (fun s => { s with oauthStatus := some sREQUIRED })
      (by intro s; exact ⟨rfl, rfl, rfl, rfl⟩), hfind]
    exact ⟨rfl, rfl⟩

/-- Witness for C1's amended claim: the failed-exchange branch at a concrete
database. -/
theorem callback_verifier_amended_witness :
    persistedVerifier
        (callbackGET devCfg (.err (some (("boom").data))) [awaitingServer]
          (("s1").data) ⟨some (("c0").data), none, none⟩).db (("s1").data)
      = awaitingServer.codeVerifier ∧
    persistedStatus
        (callbackGET devCfg (.err (some (("boom").data))) [awaitingServer]
          (("s1").data) ⟨some (("c0").data), none, none⟩).db (("s1").data)
      = some sREQUIRED :=
  ((callback_verifier_amended devCfg (.err (some (("boom").data)))
      [awaitingServer] (("s1").data) ⟨some (("c0").data), none, none⟩
      devFallbackUrl awaitingServer rfl (by decide)).2.2.2
    (by decide) (by decide) (by decide) (by decide)
    (some (("boom").data)) rfl)

/-! ### C2: misconfiguration versus network calls -/

lemma getAppUrl_prod_unconfigured (cfg : Config)
    (h1 : cfg.appUrlEnv = none ∨ cfg.appUrlEnv = some [])
    (h2 : cfg.nodeEnv = ("production").data) :
    getAppUrl cfg = .error misconfigMsg := by
  have hdev : cfg.nodeEnv ≠ devEnv := by
    rw [h2]; decide
  cases h1 with
  | inl h => simp [getAppUrl, h, hdev]
  | inr h => simp [getAppUrl, h, hdev, strTruthy]

lemma checkCatch_trace (sid : Str) (m : Thrown) (db : DB)
    (trace : List NetCall) : (checkCatch sid m db trace).trace = trace := rfl

lemma startAuthPart_trace (cfg : Config) (env : CheckEnv) (db : DB) (sid : Str)
    (trace : List NetCall) : (startAuthPart cfg env db sid trace).trace = trace := by
  unfold startAuthPart
  cases getAppUrl cfg with
  | error m => rfl
  | ok u =>
    cases env.startAuth with
    | error m => rfl
    | ok pr => cases pr with
      | mk a b => rfl

lemma tryAuthorize_trace_head (cfg : Config) (env : CheckEnv) (db : DB)
    (sid : Str) :
    (tryAuthorize cfg env db sid).trace.head? = some .probe := by
  unfold tryAuthorize
  repeat' split
  all_goals simp [startAuthPart_trace, checkCatch]

lemma checkDetect_trace_head (cfg : Config) (env : CheckEnv) (db : DB)
    (sid : Str) :
    (checkDetect cfg env db sid).trace.head? = some .probe := by
  unfold checkDetect
  by_cases hreq : (detectOAuthRequirement env.fetchOutcome).requiresAuth = true
  · simp [hreq, tryAuthorize_trace_head]
  · rw [Bool.not_eq_true] at hreq
    simp [hreq]

/-- **C2, counterexample.** In production with no public base URL, a check
invocation on a server that requires OAuth performs the probe and both
metadata fetches, and only then surfaces the misconfiguration error — which
is caught and returned in the response body rather than failing before any
outbound network call. -/
theorem misconfiguration_counterexample :
    (checkGET prodNoUrlCfg 0 happyEnv [sampleServer] (("s1").data)).trace
      = [.probe, .resourceMetaFetch, .authServerMetaFetch] ∧
    (checkGET prodNoUrlCfg 0 happyEnv [sampleServer] (("s1").data)).body.error
      = some misconfigMsg ∧
    (checkGET prodNoUrlCfg 0 happyEnv [sampleServer] (("s1").data)).body.oauthStatus
      = sREQUIRED := by
  refine ⟨by decide, by decide, by decide⟩

/-- **C2, amended.** In production with the public base URL unconfigured,
the *callback* flow fails with the misconfiguration error before any
outbound network call; the *check* flow instead performs the detection
probe (and metadata fetches) first — whenever its response carries the
misconfiguration error, the probe is the first network call of its trace,
and the error is caught into a REQUIRED response rather than thrown. -/
theorem misconfiguration_amended (cfg : Config)
    (h1 : cfg.appUrlEnv = none ∨ cfg.appUrlEnv = some [])
    (h2 : cfg.nodeEnv = ("production").data)
    (ex : ExchangeOutcome) (db : DB) (sid : Str) (p : CallbackParams)
    (nowMs : ℚ) (env : CheckEnv) (db' : DB) (sid' : Str) :
    callbackGET cfg ex db sid p
      = { outcome := .thrown misconfigMsg, db := db, trace := [] } ∧
    ((checkGET cfg nowMs env db' sid').body.error = some misconfigMsg →
      (checkGET cfg nowMs env db' sid').trace.head? = some .probe) := by
  have hge := getAppUrl_prod_unconfigured cfg h1 h2
  constructor
  · simp [callbackGET, hge]
  · intro herr
    cases hff : dbFindFirstHttp db' sid' with
    | none =>
      simp only [checkGET, hff] at herr
      have : serverNotFoundMsg ≠ misconfigMsg := by decide
      exact absurd (Option.some_injective _ herr) this
    | some server =>
      by_cases hcon : (server.oauthStatus == some sCONNECTED
          && server.authTokens.isSome) = true
      · by_cases hexp : isTokenExpired nowMs server.authTokens = true
        · simp only [checkGET, hff, hcon, hexp, Bool.not_true, Bool.false_eq_true,
            if_false, if_true]
          exact checkDetect_trace_head cfg env _ sid'
        · rw [Bool.not_eq_true] at hexp
          simp only [checkGET, hff, hcon, hexp, Bool.not_false, if_true] at herr
          exact Option.noConfusion herr
      · rw [Bool.not_eq_true] at hcon
        simp only [checkGET, hff, hcon, Bool.false_eq_true, if_false]
        exact checkDetect_trace_head cfg env db' sid'

/-- Witness for C2's amended claim at concrete production-unconfigured
inputs. -/
theorem misconfiguration_amended_witness :
    callbackGET prodNoUrlCfg (.ok ⟨none⟩) [awaitingServer] (("s1").data)
        ⟨some (("c0").data), none, none⟩
      = { outcome := .thrown misconfigMsg, db := [awaitingServer], trace := [] } :=
  (misconfiguration_amended prodNoUrlCfg (Or.inl rfl) rfl (.ok ⟨none⟩)
    [awaitingServer] (("s1").data) ⟨some (("c0").data), none, none⟩
    0 happyEnv [] []).1

/-! ### C9: the check response never carries EXPIRED -/

lemma startAuthPart_body_status (cfg : Config) (env : CheckEnv) (db : DB)
    (sid : Str) (trace : List NetCall) :
    (startAuthPart cfg env db sid trace).body.oauthStatus = sREQUIRED := by
  unfold startAuthPart
  cases getAppUrl cfg with
  | error m => rfl
  | ok u =>
    cases env.startAuth with
    | error m => rfl
    | ok pr => cases pr with
      | mk a b => rfl

lemma tryAuthorize_body_status (cfg : Config) (env : CheckEnv) (db : DB)
    (sid : Str) :
    (tryAuthorize cfg env db sid).body.oauthStatus = sREQUIRED := by
  unfold tryAuthorize
  repeat' split
  all_goals simp [startAuthPart_body_status, checkCatch, requiredBody]

lemma checkDetect_body_status (cfg : Config) (env : CheckEnv) (db : DB)
    (sid : Str) :
    (checkDetect cfg env db sid).body.oauthStatus
      = if (detectOAuthRequirement env.fetchOutcome).requiresAuth then sREQUIRED
        else sNOT_REQUIRED := by
  unfold checkDetect
  by_cases hreq : (detectOAuthRequirement env.fetchOutcome).requiresAuth = true
  · simp [hreq, tryAuthorize_body_status]
  · rw [Bool.not_eq_true] at hreq
    simp [hreq]

/-- **C9.** The check endpoint never responds with `oauthStatus=EXPIRED`:
every response carries `CONNECTED`, `NOT_REQUIRED` or `REQUIRED`; and on a
server persisted `CONNECTED` whose tokens are expired the handler continues
to re-detection within the same invocation (the probe is made). -/
theorem check_response_never_expired (cfg : Config) (nowMs : ℚ)
    (env : CheckEnv) (db : DB) (sid : Str) :
    ((checkGET cfg nowMs env db sid).body.oauthStatus = sCONNECTED ∨
     (checkGET cfg nowMs env db sid).body.oauthStatus = sNOT_REQUIRED ∨
     (checkGET cfg nowMs env db sid).body.oauthStatus = sREQUIRED) ∧
    (∀ server, dbFindFirstHttp db sid = some server →
      server.oauthStatus = some sCONNECTED → server.authTokens.isSome = true →
      isTokenExpired nowMs server.authTokens = true →
      (checkGET cfg nowMs env db sid).trace.head? = some .probe) := by
  constructor
  · cases hff : dbFindFirstHttp db sid with
    | none =>
      right; left
      simp [checkGET, hff]
    | some server =>
      by_cases hcon : (server.oauthStatus == some sCONNECTED
          && server.authTokens.isSome) = true
      · by_cases hexp : isTokenExpired nowMs server.authTokens = true
        · have : checkGET cfg nowMs env db sid
              = checkDetect cfg env (updateServerOAuthStatus db sid sEXPIRED) sid := by
            simp [checkGET, hff, hcon, hexp]
          rw [this, checkDetect_body_status]
          by_cases hreq : (detectOAuthRequirement env.fetchOutcome).requiresAuth = true
          · right; right; simp [hreq]
          · rw [Bool.not_eq_true] at hreq
            right; left; simp [hreq]
        · rw [Bool.not_eq_true] at hexp
          left
          simp [checkGET, hff, hcon, hexp]
      · rw [Bool.not_eq_true] at hcon
        have : checkGET cfg nowMs env db sid = checkDetect cfg env db sid := by
          simp [checkGET, hff, hcon]
        rw [this, checkDetect_body_status]
        by_cases hreq : (detectOAuthRequirement env.fetchOutcome).requiresAuth = true
        · right; right; simp [hreq]
        · rw [Bool.not_eq_true] at hreq
          right; left; simp [hreq]
  · intro server hff hst htk hexp
    have hcon : (server.oauthStatus == some sCONNECTED
        && server.authTokens.isSome) = true := by
      rw [hst, htk]
      simp
    have : checkGET cfg nowMs env db sid
        = checkDetect cfg env (updateServerOAuthStatus db sid sEXPIRED) sid := by
      simp [checkGET, hff, hcon, hexp]
    rw [this]
    exact checkDetect_trace_head cfg env _ sid

/-- A connected server with long-expired tokens. -/
def connectedExpiredServer : MCPServer :=
  { sampleServer with oauthStatus := some sCONNECTED,
                      authTokens := some ⟨some 100⟩ }

/-- Witness for C9: a connected server with expired tokens is re-probed. -/
theorem check_response_never_expired_witness :
    (checkGET devCfg 1700000000000 happyEnv [connectedExpiredServer]
        (("s1").data)).trace.head? = some .probe :=
  (check_response_never_expired devCfg 1700000000000 happyEnv
      [connectedExpiredServer] (("s1").data)).2 connectedExpiredServer
    (by decide) rfl rfl
    (by norm_num [isTokenExpired, connectedExpiredServer, sampleServer])

/-! ### C8: only the five enum values are ever persisted -/

/-- A persisted status cell holds one of the five enum values. -/
def statusOkB (o : Option Str) : Bool :=
  match o with
  | some v => oauthStatusValues.contains v
  | none => false

/-- Every row's `oauthStatus` holds one of the five enum values. -/
def dbStatusesOk (db : DB) : Bool :=
  db.all (fun s => statusOkB s.oauthStatus)

lemma dbStatusesOk_dbUpdate (db : DB) (sid : Str) (f : MCPServer → MCPServer)
    (h : dbStatusesOk db = true)
    (hf : ∀ s, (f s).oauthStatus = s.oauthStatus ∨
      ∃ v, (f s).oauthStatus = some v ∧ oauthStatusValues.contains v = true) :
    dbStatusesOk (dbUpdate db sid f) = true := by
  rw [dbStatusesOk, dbUpdate, List.all_map, List.all_eq_true]
  rw [dbStatusesOk, List.all_eq_true] at h
  intro s hs
  have hsok := h s hs
  by_cases hid : (s.id == sid) = true
  · simp only [Function.comp, hid, if_true]
    rcases hf s with hpres | ⟨v, hv, hvok⟩
    · rw [hpres]; exact hsok
    · rw [hv]; simpa [statusOkB] using hvok
  · simp only [Function.comp, hid, if_false]
    exact hsok

lemma startAuthPart_statuses (cfg : Config) (env : CheckEnv) (db : DB)
    (sid : Str) (trace : List NetCall) (h : dbStatusesOk db = true) :
    dbStatusesOk (startAuthPart cfg env db sid trace).db = true := by
  unfold startAuthPart
  cases getAppUrl cfg with
  | error m => exact h
  | ok u =>
    cases env.startAuth with
    | error m => exact h
    | ok pr =>
      cases pr with
      | mk a b =>
        exact dbStatusesOk_dbUpdate db sid _ h (fun s => Or.inl rfl)

lemma tryAuthorize_statuses (cfg : Config) (env : CheckEnv) (db : DB)
    (sid : Str) (h : dbStatusesOk db = true) :
    dbStatusesOk (tryAuthorize cfg env db sid).db = true := by
  unfold tryAuthorize
  repeat' split
  all_goals first
    | exact h
    | exact startAuthPart_statuses cfg env db sid _ h
    | exact startAuthPart_statuses cfg env _ sid _
        (dbStatusesOk_dbUpdate db sid _ h (fun s => Or.inl rfl))

lemma checkDetect_statuses (cfg : Config) (env : CheckEnv) (db : DB)
    (sid : Str) (h : dbStatusesOk db = true) :
    dbStatusesOk (checkDetect cfg env db sid).db = true := by
  unfold checkDetect
  by_cases hreq : (detectOAuthRequirement env.fetchOutcome).requiresAuth = true
  · simp only [hreq, Bool.not_true, Bool.false_eq_true, if_false]
    exact tryAuthorize_statuses cfg env _ sid
      (dbStatusesOk_dbUpdate db sid _ h
        (fun s => Or.inr ⟨sREQUIRED, rfl, by decide⟩))
  · rw [Bool.not_eq_true] at hreq
    simp only [hreq, Bool.not_false, if_true]
    exact dbStatusesOk_dbUpdate db sid _ h
      (fun s => Or.inr ⟨sNOT_REQUIRED, rfl, by decide⟩)

/-- **C8.** The flow only ever persists one of the five `OAuthStatus` enum
values: if every row's status is one of the five before a check or a
callback invocation, it still is afterwards (every status write in both
handlers writes an enum constant). -/
theorem status_enum_invariant (cfg : Config) (nowMs : ℚ) (env : CheckEnv)
    (db : DB) (sid : Str) (cfg' : Config) (ex : ExchangeOutcome) (db' : DB)
    (sid' : Str) (p : CallbackParams) :
    (dbStatusesOk db = true →
      dbStatusesOk (checkGET cfg nowMs env db sid).db = true) ∧
    (dbStatusesOk db' = true →
      dbStatusesOk (callbackGET cfg' ex db' sid' p).db = true) := by
  constructor
  · intro h
    unfold checkGET
    cases dbFindFirstHttp db sid with
    | none => exact h
    | some server =>
      by_cases hcon : (server.oauthStatus == some sCONNECTED
          && server.authTokens.isSome) = true
      · simp only [hcon, if_true]
        by_cases hexp : isTokenExpired nowMs server.authTokens = true
        · simp only [hexp, Bool.not_true, Bool.false_eq_true, if_false]
          exact checkDetect_statuses cfg env _ sid
            (dbStatusesOk_dbUpdate db sid _ h
              (fun s => Or.inr ⟨sEXPIRED, rfl, by decide⟩))
        · rw [Bool.not_eq_true] at hexp
          simp only [hexp, Bool.not_false, if_true]
          exact h
      · simp only [hcon, Bool.false_eq_true, if_false]
        exact checkDetect_statuses cfg env db sid h
  · intro h
    unfold callbackGET
    cases getAppUrl cfg' with
    | error m => exact h
    | ok u =>
      by_cases he : strTruthy (p.error.getD []) = true
      · simp only [he, if_true]
        exact h
      · rw [Bool.not_eq_true] at he
        simp only [he, Bool.false_eq_true, if_false]
        by_cases hc : strTruthy (p.code.getD []) = true
        · simp only [hc, Bool.not_true, Bool.false_eq_true, if_false]
          cases dbFindUnique db' sid' with
          | none => exact h
          | some server =>
            by_cases hurl : strTruthy (server.url.getD []) = true
            · simp only [hurl, Bool.not_true, Bool.false_eq_true, if_false]
              cases server.codeVerifier with
              | none =>
                exact dbStatusesOk_dbUpdate db' sid' _ h
                  (fun s => Or.inr ⟨sREQUIRED, rfl, by decide⟩)
              | some v =>
                cases ex with
                | ok tk =>
                  exact dbStatusesOk_dbUpdate _ sid' _
                    (dbStatusesOk_dbUpdate db' sid' _ h
                      (fun s => Or.inr ⟨sCONNECTED, rfl, by decide⟩))
                    (fun s => Or.inr ⟨sCONNECTED, rfl, by decide⟩)
                | err m =>
                  exact dbStatusesOk_dbUpdate db' sid' _ h
                    (fun s => Or.inr ⟨sREQUIRED, rfl, by decide⟩)
            · rw [Bool.not_eq_true] at hurl
              simp only [hurl, Bool.not_false, if_true]
              exact h
        · rw [Bool.not_eq_true] at hc
          simp only [hc, Bool.not_false, if_true]
          exact h

/-- Witness for C8 at a concrete database and happy-path environment. -/
theorem status_enum_invariant_witness :
    dbStatusesOk (checkGET devCfg 0 happyEnv [sampleServer] (("s1").data)).db
      = true :=
  (status_enum_invariant devCfg 0 happyEnv [sampleServer] (("s1").data)
    devCfg (.ok ⟨none⟩) [awaitingServer] (("s1").data)
    ⟨some (("c0").data), none, none⟩).1 (by decide)

/-! ### C6: registration idempotence -/

lemma dbUpdate_id (db : DB) (sid : Str) : dbUpdate db sid (fun s => s) = db := by
  simp [dbUpdate]

lemma startAuthPart_full (cfg : Config) (env : CheckEnv) (db : DB) (sid : Str)
    (trace : List NetCall) :
    ∃ g, (startAuthPart cfg env db sid trace).db = dbUpdate db sid g ∧
      keyPreserving g ∧ (∀ s, (g s).clientInfo = s.clientInfo) ∧
      (∀ s, (g s).oauthStatus = s.oauthStatus) := by
  unfold startAuthPart
  cases getAppUrl cfg with
  | error m =>
    exact ⟨fun s => s, (dbUpdate_id db sid).symm, fun s => ⟨rfl, rfl, rfl, rfl⟩,
      fun s => rfl, fun s => rfl⟩
  | ok u =>
    cases env.startAuth with
    | error m =>
      exact ⟨fun s => s, (dbUpdate_id db sid).symm, fun s => ⟨rfl, rfl, rfl, rfl⟩,
        fun s => rfl, fun s => rfl⟩
    | ok pr =>
      cases pr with
      | mk a b =>
        exact ⟨fun s => { s with codeVerifier := some b }, rfl,
          fun s => ⟨rfl, rfl, rfl, rfl⟩, fun s => rfl, fun s => rfl⟩

lemma tryAuthorize_full (cfg : Config) (env : CheckEnv) (db : DB) (sid : Str)
    (ci : ClientInfo)
    (hci : (dbFindUnique db sid).bind (·.clientInfo) = some ci) :
    (∃ g, (tryAuthorize cfg env db sid).db = dbUpdate db sid g ∧
      keyPreserving g ∧ (∀ s, (g s).clientInfo = s.clientInfo) ∧
      (∀ s, (g s).oauthStatus = s.oauthStatus)) ∧
    NetCall.register ∉ (tryAuthorize cfg env db sid).trace := by
  have hid : ∃ g, db = dbUpdate db sid g ∧
      keyPreserving g ∧ (∀ s, (g s).clientInfo = s.clientInfo) ∧
      (∀ s, (g s).oauthStatus = s.oauthStatus) :=
    ⟨fun s => s, (dbUpdate_id db sid).symm, fun s => ⟨rfl, rfl, rfl, rfl⟩,
      fun s => rfl, fun s => rfl⟩
  unfold tryAuthorize
  cases env.resourceMeta with
  | error m => exact ⟨hid, by simp [checkCatch]⟩
  | ok rm =>
    dsimp only
    cases (rm.bind (·.authorization_servers)).getD [] with
    | nil => exact ⟨hid, by simp [checkCatch]⟩
    | cons a l =>
      cases env.authServerMeta with
      | error m => exact ⟨hid, by simp [checkCatch]⟩
      | ok x =>
        dsimp only
        cases x with
        | none => exact ⟨hid, by simp [checkCatch]⟩
        | some meta =>
          dsimp only
          rw [hci]
          dsimp only
          obtain ⟨g, hdb, hkey, hcip, hstp⟩ :=
            startAuthPart_full cfg env db sid
              [.probe, .resourceMetaFetch, .authServerMetaFetch]
          refine ⟨⟨g, hdb, hkey, hcip, hstp⟩, ?_⟩
          rw [startAuthPart_trace]
          decide

lemma checkDetect_full (cfg : Config) (env : CheckEnv) (db : DB) (sid : Str)
    (ci : ClientInfo)
    (hci : (dbFindUnique db sid).bind (·.clientInfo) = some ci) :
    (∃ g, (checkDetect cfg env db sid).db = dbUpdate db sid g ∧
      keyPreserving g ∧ (∀ s, (g s).clientInfo = s.clientInfo) ∧
      (∀ s, (g s).oauthStatus = some sNOT_REQUIRED ∨
            (g s).oauthStatus = some sREQUIRED)) ∧
    NetCall.register ∉ (checkDetect cfg env db sid).trace := by
  have hkeyreq : keyPreserving (fun s => { s with oauthStatus := some sREQUIRED }) :=
    fun s => ⟨rfl, rfl, rfl, rfl⟩
  unfold checkDetect
  by_cases hreq : (detectOAuthRequirement env.fetchOutcome).requiresAuth = true
  · simp only [hreq, Bool.not_true, Bool.false_eq_true, if_false]
    have hci1 : (dbFindUnique
        (updateServerOAuthStatus db sid sREQUIRED) sid).bind (·.clientInfo)
        = some ci := by
      rw [updateServerOAuthStatus, dbFindUnique_dbUpdate_self db sid _ hkeyreq]
      cases hfd : dbFindUnique db sid with
      | none => rw [hfd] at hci; simp at hci
      | some s0 =>
        rw [hfd] at hci
        simpa using hci
    obtain ⟨⟨g, hgdb, hgkey, hgci, hgst⟩, hgreg⟩ :=
      tryAuthorize_full cfg env (updateServerOAuthStatus db sid sREQUIRED) sid ci hci1
    refine ⟨⟨fun s : MCPServer => g { s with oauthStatus := some sREQUIRED }, ?_, ?_, ?_, ?_⟩, hgreg⟩
    · rw [hgdb, updateServerOAuthStatus, dbUpdate_comp db sid _ g hkeyreq]
    · intro s
      refine ⟨?_, ?_, ?_, ?_⟩
      · exact (hgkey _).1
      · exact (hgkey _).2.1
      · exact (hgkey _).2.2.1
      · exact (hgkey _).2.2.2
    · intro s
      exact hgci _
    · intro s
      right
      exact hgst _
  · rw [Bool.not_eq_true] at hreq
    simp only [hreq, Bool.not_false, if_true]
    exact ⟨⟨fun s => { s with oauthStatus := some sNOT_REQUIRED }, rfl,
      fun s => ⟨rfl, rfl, rfl, rfl⟩, fun s => rfl, fun s => Or.inl rfl⟩, by decide⟩

lemma checkGET_on_forced_db (cfg : Config) (nowMs : ℚ) (env : CheckEnv)
    (db : DB) (sid : Str) (server : MCPServer) (ci : ClientInfo)
    (G : MCPServer → MCPServer)
    (hff : dbFindFirstHttp db sid = some server)
    (hfu : dbFindUnique db sid = some server)
    (hci : server.clientInfo = some ci)
    (hGkey : keyPreserving G) (hGci : ∀ s, (G s).clientInfo = s.clientInfo)
    (hGst : ∀ s, (G s).oauthStatus = some sNOT_REQUIRED ∨
                 (G s).oauthStatus = some sREQUIRED) :
    checkGET cfg nowMs env (dbUpdate db sid G) sid
      = checkDetect cfg env (dbUpdate db sid G) sid ∧
    (dbFindUnique (dbUpdate db sid G) sid).bind (·.clientInfo) = some ci := by
  have hff1 : dbFindFirstHttp (dbUpdate db sid G) sid = some (G server) := by
    rw [dbFindFirstHttp_dbUpdate_self db sid G hGkey, hff]
    rfl
  have hguard : ((G server).oauthStatus == some sCONNECTED
      && (G server).authTokens.isSome) = false := by
    rcases hGst server with h | h
    · rw [h]
      simp [sNOT_REQUIRED, sCONNECTED]
    · rw [h]
      simp [sREQUIRED, sCONNECTED]
  constructor
  · simp [checkGET, hff1, hguard]
  · rw [dbFindUnique_dbUpdate_self db sid G hGkey, hfu]
    simpa using hGci server ▸ hci

/-- **C6.** Registration is idempotent: for a stored `http` server with
persisted `clientInfo`, a second check invocation with no intervening
callback returns the same `oauthStatus` as the first, neither invocation
performs dynamic client registration, and the cached `clientInfo` is still
persisted afterwards. -/
theorem check_registration_idempotent (cfg : Config) (nowMs : ℚ)
    (env : CheckEnv) (db : DB) (sid : Str) (server : MCPServer)
    (ci : ClientInfo)
    (hff : dbFindFirstHttp db sid = some server)
    (hfu : dbFindUnique db sid = some server)
    (hci : server.clientInfo = some ci) :
    (checkGET cfg nowMs env (checkGET cfg nowMs env db sid).db sid).body.oauthStatus
      = (checkGET cfg nowMs env db sid).body.oauthStatus ∧
    NetCall.register ∉ (checkGET cfg nowMs env db sid).trace ∧
    NetCall.register ∉
      (checkGET cfg nowMs env (checkGET cfg nowMs env db sid).db sid).trace ∧
    (dbFindUnique
        (checkGET cfg nowMs env (checkGET cfg nowMs env db sid).db sid).db
        sid).bind (·.clientInfo) = some ci := by
  have hci0 : (dbFindUnique db sid).bind (·.clientInfo) = some ci := by
    rw [hfu]
    simpa using hci
  by_cases hcon : (server.oauthStatus == some sCONNECTED
      && server.authTokens.isSome) = true
  · by_cases hexp : isTokenExpired nowMs server.authTokens = true
    · -- expired tokens: EXPIRED is written, then detection runs
      have hkeyE : keyPreserving (fun s => { s with oauthStatus := some sEXPIRED }) :=
        fun s => ⟨rfl, rfl, rfl, rfl⟩
      have hr1 : checkGET cfg nowMs env db sid
          = checkDetect cfg env (updateServerOAuthStatus db sid sEXPIRED) sid := by
        simp [checkGET, hff, hcon, hexp]
      have hciE : (dbFindUnique
          (updateServerOAuthStatus db sid sEXPIRED) sid).bind (·.clientInfo)
          = some ci := by
        rw [updateServerOAuthStatus, dbFindUnique_dbUpdate_self db sid _ hkeyE, hfu]
        simpa using hci
      obtain ⟨⟨g, hgdb, hgkey, hgci, hgst⟩, hgreg⟩ :=
        checkDetect_full cfg env (updateServerOAuthStatus db sid sEXPIRED) sid ci hciE
      have hr1db : (checkGET cfg nowMs env db sid).db
          = dbUpdate db sid (fun s : MCPServer => g { s with oauthStatus := some sEXPIRED }) := by
        rw [hr1, hgdb, updateServerOAuthStatus, dbUpdate_comp db sid _ g hkeyE]
      have hGkey : keyPreserving
          (fun s : MCPServer => g { s with oauthStatus := some sEXPIRED }) := by
        intro s
        exact ⟨(hgkey _).1, (hgkey _).2.1, (hgkey _).2.2.1, (hgkey _).2.2.2⟩
      have hGci : ∀ s, ((fun s : MCPServer => g { s with oauthStatus := some sEXPIRED }) s).clientInfo
          = s.clientInfo := fun s => hgci _
      have hGst : ∀ s, ((fun s : MCPServer => g { s with oauthStatus := some sEXPIRED }) s).oauthStatus
            = some sNOT_REQUIRED ∨
          ((fun s : MCPServer => g { s with oauthStatus := some sEXPIRED }) s).oauthStatus
            = some sREQUIRED := fun s => hgst _
      obtain ⟨hr2eq, hcifin⟩ := checkGET_on_forced_db cfg nowMs env db sid server ci
        _ hff hfu hci hGkey hGci hGst
      obtain ⟨⟨g2, hg2db, hg2key, hg2ci, hg2st⟩, hg2reg⟩ :=
        checkDetect_full cfg env (dbUpdate db sid
          (fun s : MCPServer => g { s with oauthStatus := some sEXPIRED })) sid ci hcifin
      refine ⟨?_, ?_, ?_, ?_⟩
      · rw [hr1db, hr2eq, hr1, checkDetect_body_status, checkDetect_body_status]
      · rw [hr1]
        exact hgreg
      · rw [hr1db, hr2eq]
        exact hg2reg
      · rw [hr1db, hr2eq, hg2db, dbFindUnique_dbUpdate_self _ sid g2 hg2key,
          dbFindUnique_dbUpdate_self db sid _ hGkey, hfu]
        simp only [Option.map_some', Option.some_bind]
        rw [hg2ci, hGci, hci]
    · -- connected with valid tokens: both calls short-circuit identically
      rw [Bool.not_eq_true] at hexp
      have hr1 : checkGET cfg nowMs env db sid
          = { httpStatus := 200,
              body := { serverId := sid, requiresAuth := true, connected := true,
                        oauthStatus := sCONNECTED },
              db := db, trace := [] } := by
        simp [checkGET, hff, hcon, hexp]
      have hdb1 : (checkGET cfg nowMs env db sid).db = db := by rw [hr1]
      have htr1 : (checkGET cfg nowMs env db sid).trace = [] := by rw [hr1]
      refine ⟨?_, ?_, ?_, ?_⟩
      · rw [hdb1]
      · rw [htr1]
        simp
      · rw [hdb1, htr1]
        simp
      · rw [hdb1, hdb1]
        exact hci0
  · -- not connected: detection runs directly
    rw [Bool.not_eq_true] at hcon
    have hr1 : checkGET cfg nowMs env db sid = checkDetect cfg env db sid := by
      simp [checkGET, hff, hcon]
    obtain ⟨⟨g, hgdb, hgkey, hgci, hgst⟩, hgreg⟩ :=
      checkDetect_full cfg env db sid ci hci0
    have hr1db : (checkGET cfg nowMs env db sid).db = dbUpdate db sid g := by
      rw [hr1, hgdb]
    obtain ⟨hr2eq, hcifin⟩ := checkGET_on_forced_db cfg nowMs env db sid server ci
      g hff hfu hci hgkey hgci hgst
    obtain ⟨⟨g2, hg2db, hg2key, hg2ci, hg2st⟩, hg2reg⟩ :=
      checkDetect_full cfg env (dbUpdate db sid g) sid ci hcifin
    refine ⟨?_, ?_, ?_, ?_⟩
    · rw [hr1db, hr2eq, hr1, checkDetect_body_status, checkDetect_body_status]
    · rw [hr1]
      exact hgreg
    · rw [hr1db, hr2eq]
      exact hg2reg
    · rw [hr1db, hr2eq, hg2db, dbFindUnique_dbUpdate_self _ sid g2 hg2key,
        dbFindUnique_dbUpdate_self db sid g hgkey, hfu]
      simp only [Option.map_some', Option.some_bind]
      rw [hg2ci, hgci, hci]

/-- Witness for C6: a registered server awaiting its callback; two check
calls in a row return the same status and never hit the registration
endpoint. -/
theorem check_registration_idempotent_witness :
    (checkGET devCfg 0 happyEnv
        (checkGET devCfg 0 happyEnv [awaitingServer] (("s1").data)).db
        (("s1").data)).body.oauthStatus
      = (checkGET devCfg 0 happyEnv [awaitingServer] (("s1").data)).body.oauthStatus ∧
    NetCall.register ∉ (checkGET devCfg 0 happyEnv [awaitingServer] (("s1").data)).trace :=
  let h := check_registration_idempotent devCfg 0 happyEnv [awaitingServer]
    (("s1").data) awaitingServer ⟨("cid-1").data⟩ (by decide) (by decide) rfl
  ⟨h.1, h.2.1⟩

end OAuthFlow
